import Mathlib

/-!
Verification of the color engine of the PaletteLive website
(`src/App.tsx`): hex parsing, WCAG relative luminance and contrast
ratio, the auto contrast repair loop, CMYK / OKLCH / internal-format
exporters and the palette import routine.

JavaScript floating point numbers are modelled by real numbers (and by
rationals where the computation stays exact); the JavaScript value
`NaN` is modelled by `Option.none`, following the rule that every
comparison against `NaN` is false.
-/

namespace PaletteLive

/-- Value of one hexadecimal digit (`0`-`9`, `a`-`f`, `A`-`F`),
mirroring the digit classes accepted by `parseInt(s, 16)`. -/
def hexDigitVal? (c : Char) : Option ℕ :=
  if 48 ≤ c.toNat ∧ c.toNat ≤ 57 then some (c.toNat - 48)
  else if 97 ≤ c.toNat ∧ c.toNat ≤ 102 then some (c.toNat - 87)
  else if 65 ≤ c.toNat ∧ c.toNat ≤ 70 then some (c.toNat - 55)
  else none

/-- Accumulating phase of `parseInt(s, 16)`: consume further hex digits,
stopping at the first character that is not a hex digit. -/
def parseIntHexGo : ℕ → List Char → ℕ
  | acc, [] => acc
  | acc, c :: rest =>
    match hexDigitVal? c with
    | some d => parseIntHexGo (16 * acc + d) rest
    | none => acc

/-- `parseInt(s, 16)` on the hex-digit fragments produced by this app:
parse the maximal leading run of hex digits, `none` (JavaScript `NaN`)
when the string does not start with a hex digit.  Sign, whitespace and
`0x` handling of the full JavaScript builtin are irrelevant for the
well-formed `#RRGGBB` colors the claims quantify over. -/
def parseIntHex : List Char → Option ℕ
  | [] => none
  | c :: rest => (hexDigitVal? c).map fun d => parseIntHexGo d rest

/-- `s.slice(a, b)` on the character list of a JavaScript string
(for `0 ≤ a ≤ b`). -/
def sliceChars (cs : List Char) (a b : ℕ) : List Char :=
  (cs.drop a).take (b - a)

/-- `s.replace("#", "")`: remove the first occurrence of `#` (a string
pattern replaces only the first match in JavaScript). -/
def replaceFirstHash : List Char → List Char
  | [] => []
  | c :: rest => if c = '#' then rest else c :: replaceFirstHash rest

/-- Recognizer for a well-formed `#RRGGBB` color string. -/
def isHexColorB (s : String) : Bool :=
  match s.data with
  | c :: rest => c = '#' && rest.length = 6 && rest.all fun d => (hexDigitVal? d).isSome
  | [] => false

/-- The WCAG piecewise-gamma threshold used by `luminance`
(`src/App.tsx` line 335). -/
def wcagThreshold : ℝ := 0.03928

/-- The generic sRGB threshold used by the `toLinear` helpers of the
LAB and OKLCH exporters (`src/App.tsx` lines 88 and 103). -/
def srgbThreshold : ℝ := 0.04045

/-- The WCAG transfer function `f` of `luminance`:
`c <= 0.03928 ? c / 12.92 : Math.pow((c + 0.055) / 1.055, 2.4)`. -/
noncomputable def gammaWCAG (c : ℝ) : ℝ :=
  if c ≤ wcagThreshold then c / 12.92 else ((c + 0.055) / 1.055) ^ (2.4 : ℝ)

/-- The three channel bytes read by `luminance` via
`parseInt(hex.slice(1, 3), 16)` (and `(3,5)`, `(5,7)`). -/
def lumChannels (s : String) : Option (ℕ × ℕ × ℕ) :=
  match parseIntHex (sliceChars s.data 1 3),
        parseIntHex (sliceChars s.data 3 5),
        parseIntHex (sliceChars s.data 5 7) with
  | some r, some g, some b => some (r, g, b)
  | _, _, _ => none

/-- `0.2126 * f(r) + 0.7152 * f(g) + 0.0722 * f(b)` on channel bytes. -/
noncomputable def lumRGB (r g b : ℕ) : ℝ :=
  0.2126 * gammaWCAG ((r : ℝ) / 255) + 0.7152 * gammaWCAG ((g : ℝ) / 255)
    + 0.0722 * gammaWCAG ((b : ℝ) / 255)

/-- `luminance` (`src/App.tsx` lines 331-337).  `none` models the `NaN`
produced when a channel slice does not parse. -/
noncomputable def luminance (hex : String) : Option ℝ :=
  (lumChannels hex).map fun c => lumRGB c.1 c.2.1 c.2.2

/-- `contrastRatio` (`src/App.tsx` lines 338-342):
`la > lb ? la / lb : lb / la` on the two luminances plus `0.05`;
`none` (`NaN`) propagates. -/
noncomputable def contrastRatio (a b : String) : Option ℝ :=
  match luminance a, luminance b with
  | some lA, some lB =>
    let la := lA + 0.05
    let lb := lB + 0.05
    some (if lb < la then la / lb else lb / la)
  | _, _ => none

/-- `x >= c` on a JavaScript number that may be `NaN` (`none`): any
comparison against `NaN` is false. -/
def jsGe (x : Option ℝ) (c : ℝ) : Prop := ∃ r, x = some r ∧ c ≤ r

/-- `x > c` on a JavaScript number that may be `NaN` (`none`). -/
def jsGt (x : Option ℝ) (c : ℝ) : Prop := ∃ r, x = some r ∧ c < r

/-- The `toLinear` helper shared by the LAB and OKLCH exporters
(`src/App.tsx` lines 88 and 103):
`v /= 255; v <= 0.04045 ? v / 12.92 : Math.pow((v + 0.055) / 1.055, 2.4)`. -/
noncomputable def toLinear (v : ℝ) : ℝ :=
  if v / 255 ≤ srgbThreshold then (v / 255) / 12.92
  else ((v / 255 + 0.055) / 1.055) ^ (2.4 : ℝ)

/-- `Math.cbrt`: real cube root, odd extension of `x ^ (1/3)`. -/
noncomputable def cbrt (x : ℝ) : ℝ :=
  if 0 ≤ x then x ^ ((1 : ℝ) / 3) else -((-x) ^ ((1 : ℝ) / 3))

/-- `Math.atan2(y, x)`, modelled by the argument of the complex number
`x + y*i`, which also lies in `(-pi, pi]` and is `0` at the origin. -/
noncomputable def atan2 (y x : ℝ) : ℝ := Complex.arg ⟨x, y⟩

/-- `hexToOklch` inside `exportToOKLCH` (`src/App.tsx` lines 104-116):
strip the first `#`, truncate to 6 chars, parse the three channel
bytes, linearize, apply the two fixed Oklab matrices with cube-root
compression, then the polar form.  `none` models a `NaN` result from an
unparsable channel. -/
noncomputable def hexToOklch (hexStr : String) : Option (ℝ × ℝ × ℝ) :=
  let hex := (replaceFirstHash hexStr.data).take 6
  match parseIntHex (sliceChars hex 0 2), parseIntHex (sliceChars hex 2 4),
        parseIntHex (sliceChars hex 4 6) with
  | some rN, some gN, some bN =>
    let r := toLinear rN
    let g := toLinear gN
    let b := toLinear bN
    let l' := cbrt (0.4122214708 * r + 0.5363325363 * g + 0.0514459929 * b)
    let m' := cbrt (0.2119034982 * r + 0.6806995451 * g + 0.1073969566 * b)
    let s' := cbrt (0.0883024619 * r + 0.2817188376 * g + 0.6299787005 * b)
    let L := 0.2104542553 * l' + 0.793617785 * m' - 0.0040720468 * s'
    let a := 1.9779984951 * l' - 2.428592205 * m' + 0.4505937099 * s'
    let bOk := 0.0259040371 * l' + 0.7827717662 * m' - 0.808675766 * s'
    let C := Real.sqrt (a * a + bOk * bOk)
    let H0 := atan2 bOk a * (180 / Real.pi)
    let H := if H0 < 0 then H0 + 360 else H0
    some (L, C, H)
  | _, _, _ => none

/-- Lowercase hex digit character, as produced by `v.toString(16)`. -/
def hexDigitChar (d : ℕ) : Char :=
  Char.ofNat (if d < 10 then 48 + d else 87 + d)

/-- `v.toString(16).padStart(2, "0")` for a channel value `v <= 255`. -/
def toHexByte (v : ℕ) : List Char :=
  [hexDigitChar (v / 16), hexDigitChar (v % 16)]

/-- `"#" + [r, g, b].map(v => v.toString(16).padStart(2, "0")).join("")`
(`src/App.tsx` line 160). -/
def hexOfRGB (rgb : ℕ × ℕ × ℕ) : String :=
  ⟨'#' :: (toHexByte rgb.1 ++ toHexByte rgb.2.1 ++ toHexByte rgb.2.2)⟩

/-- The channel parse of `fixTextContrast` (`src/App.tsx` lines 154-155):
`hex = current.replace("#", "")`, then
`parseInt(hex.slice(0,2), 16)` / `(2,4)` / `(4,6)`.
`none` models any channel being `NaN`. -/
def channels? (s : String) : Option (ℕ × ℕ × ℕ) :=
  let hex := replaceFirstHash s.data
  match parseIntHex (sliceChars hex 0 2), parseIntHex (sliceChars hex 2 4),
        parseIntHex (sliceChars hex 4 6) with
  | some r, some g, some b => some (r, g, b)
  | _, _, _ => none

section
open Classical

/-- One step of the repair loop (`src/App.tsx` lines 158-159):
`lighten` steps each channel by `Math.min(255, c + 12)`, otherwise by
`Math.max(0, c - 12)` (truncated subtraction on `ℕ`). -/
noncomputable def stepRGB (lighten : Prop) (rgb : ℕ × ℕ × ℕ) : ℕ × ℕ × ℕ :=
  if lighten then (min 255 (rgb.1 + 12), min 255 (rgb.2.1 + 12), min 255 (rgb.2.2 + 12))
  else (rgb.1 - 12, rgb.2.1 - 12, rgb.2.2 - 12)

/-- The bounded repair loop of `fixTextContrast` (`src/App.tsx`
lines 157-163): up to `fuel` steps; after each step the stepped color is
formatted and its contrast against the unchanged background recomputed;
the first stepped color reaching ratio `>= 4.5` is returned, `none` if
the budget is exhausted (the caller then leaves the entry unmodified). -/
noncomputable def fixLoop (bg : String) (lighten : Prop) : ℕ → ℕ × ℕ × ℕ → Option String
  | 0, _ => none
  | fuel + 1, rgb =>
    let rgb' := stepRGB lighten rgb
    let fixed := hexOfRGB rgb'
    if jsGe (contrastRatio fixed bg) 4.5 then some fixed
    else fixLoop bg lighten fuel rgb'

/-- The per-entry body of `fixTextContrast` (`src/App.tsx` lines 150-163):
return `some fixed` when the loop repaired the entry, `none` when the
entry is left as it is (already passing, or budget exhausted, or - with
`NaN` channels - the loop can never reach the threshold, since every
contrast against a `NaN`-channel color is `NaN`). -/
noncomputable def fixEntry (bg current : String) : Option String :=
  if jsGe (contrastRatio current bg) 4.5 then none
  else
    match channels? current with
    | some rgb => fixLoop bg (jsGt (luminance bg) 0.5) 20 rgb
    | none => none

end

/-- One `forEach` iteration of `fixTextContrast` (`src/App.tsx`
lines 148-164): indices below 3 are skipped, otherwise a repaired entry
writes `next[i] = fixed` and anything else leaves `next` alone. -/
noncomputable def fixStep (bg : String) (swatches : List String)
    (next : ℕ → Option String) (i : ℕ) : ℕ → Option String :=
  if i < 3 then next
  else
    match fixEntry bg ((next i).getD (swatches.getD i "")) with
    | some fixed => fun j => if j = i then some fixed else next j
    | none => next

/-- `fixTextContrast` (`src/App.tsx` lines 144-166).  The
`Record<number, string>` of custom swatches is modelled as
`ℕ → Option String`; `forEach` over the swatch indices is a fold of
`fixStep`, each iteration touching only its own index `i` (for `i >= 3`). -/
noncomputable def fixTextContrast (swatches : List String)
    (customSwatches : ℕ → Option String) : ℕ → Option String :=
  let bg := (customSwatches 0).getD (swatches.getD 0 "")
  (List.range swatches.length).foldl (fixStep bg swatches) customSwatches

/-- `Math.max` on two JavaScript numbers (`NaN` absorbs). -/
def jsMax : Option ℚ → Option ℚ → Option ℚ
  | some a, some b => some (max a b)
  | _, _ => none

/-- Subtraction on JavaScript numbers (`NaN` propagates). -/
def jsSub : Option ℚ → Option ℚ → Option ℚ
  | some a, some b => some (a - b)
  | _, _ => none

/-- Division on JavaScript numbers (`NaN` propagates; on every reachable
path of the CMYK converter the denominator `1 - k` is positive). -/
def jsDivQ : Option ℚ → Option ℚ → Option ℚ
  | some a, some b => some (a / b)
  | _, _ => none

/-- Multiplication on JavaScript numbers (`NaN` propagates). -/
def jsMulQ : Option ℚ → Option ℚ → Option ℚ
  | some a, some b => some (a * b)
  | _, _ => none

/-- `x < c` as evaluated by JavaScript: false when `x` is `NaN`. -/
def jsLtB (x : Option ℚ) (c : ℚ) : Bool :=
  match x with
  | some v => decide (v < c)
  | none => false

/-- `x.toFixed(1)`: round to the nearest tenth (ties away from zero for
the nonnegative values occurring here), rendered with one decimal;
`"NaN"` for `NaN`. -/
def toFixed1 : Option ℚ → String
  | none => "NaN"
  | some q =>
    let n : ℤ := ⌊q * 10 + 1 / 2⌋
    toString (n / 10) ++ "." ++ toString (n % 10)

/-- One output line of `exportToCMYK` (`src/App.tsx` lines 74-83): the
black sentinel when the payload, after stripping the first `#` and
truncating to 6 chars, does not have length 6; otherwise the CMYK
formula (`NaN` from unparsable channels propagates into the output). -/
def cmykLine (c : String × String) : String :=
  let hex := (replaceFirstHash c.2.data).take 6
  if hex.length ≠ 6 then c.1 ++ ": cmyk(0%, 0%, 0%, 100%)"
  else
    let r := (parseIntHex (sliceChars hex 0 2)).map fun n => (n : ℚ) / 255
    let g := (parseIntHex (sliceChars hex 2 4)).map fun n => (n : ℚ) / 255
    let b := (parseIntHex (sliceChars hex 4 6)).map fun n => (n : ℚ) / 255
    let k := jsSub (some 1) (jsMax (jsMax r g) b)
    let cy := if jsLtB k 1 then jsDivQ (jsSub (jsSub (some 1) r) k) (jsSub (some 1) k) else some 0
    let ma := if jsLtB k 1 then jsDivQ (jsSub (jsSub (some 1) g) k) (jsSub (some 1) k) else some 0
    let ye := if jsLtB k 1 then jsDivQ (jsSub (jsSub (some 1) b) k) (jsSub (some 1) k) else some 0
    c.1 ++ ": cmyk(" ++ toFixed1 (jsMulQ cy (some 100)) ++ "%, "
      ++ toFixed1 (jsMulQ ma (some 100)) ++ "%, "
      ++ toFixed1 (jsMulQ ye (some 100)) ++ "%, "
      ++ toFixed1 (jsMulQ k (some 100)) ++ "%)"

/-- `exportToCMYK` (`src/App.tsx` lines 72-85): a header line followed
by one line per entry, joined with newlines. -/
def exportToCMYK (colors : List (String × String)) : String :=
  String.intercalate "\n" ("/* CMYK Color Palette */\n" :: colors.map cmykLine)

/-- JSON string escaping of one character, as performed by
`JSON.stringify`. -/
def jsonEscapeChar (c : Char) : List Char :=
  if c = '"' then ['\\', '"']
  else if c = '\\' then ['\\', '\\']
  else if c = Char.ofNat 8 then ['\\', 'b']
  else if c = Char.ofNat 12 then ['\\', 'f']
  else if c = Char.ofNat 10 then ['\\', 'n']
  else if c = Char.ofNat 13 then ['\\', 'r']
  else if c = Char.ofNat 9 then ['\\', 't']
  else if c.toNat < 32 then
    ['\\', 'u', '0', '0', hexDigitChar (c.toNat / 16), hexDigitChar (c.toNat % 16)]
  else [c]

/-- JSON string escaping, character by character. -/
def jsonEscape (cs : List Char) : List Char :=
  cs.foldr (fun c acc => jsonEscapeChar c ++ acc) []

/-- A JSON string literal: quote, escaped body, quote. -/
def quoteJson (s : String) : List Char :=
  '"' :: (jsonEscape s.data ++ ['"'])

/-- Assignment `rec[k] = v` on a JavaScript object used as a string map:
an existing key keeps its position and gets the new value, a new key is
appended.  (The engine-level special casing of keys such as integer-like
strings or `__proto__` is outside this model; the round-trip claim
compares name-to-color maps, for which insertion order is irrelevant.) -/
def recordInsert (rec : List (String × String)) (k v : String) : List (String × String) :=
  if rec.any fun p => p.1 = k then rec.map fun p => if p.1 = k then (k, v) else p
  else rec ++ [(k, v)]

/-- The `overrides` record built by `exportToPaletteLive`
(`src/App.tsx` lines 123-124): `colors.forEach(c => overrides[c.name] = c.value)`. -/
def overridesRecord (colors : List (String × String)) : List (String × String) :=
  colors.foldl (fun acc c => recordInsert acc c.1 c.2) []

/-- One `    "name": "value"` line of the pretty-printed `overrides`
object (depth 2, hence 4 spaces of indentation). -/
def pairChars (p : String × String) : List Char :=
  ' ' :: ' ' :: ' ' :: ' ' :: (quoteJson p.1 ++ ':' :: ' ' :: quoteJson p.2)

/-- Join non-empty chunks with a separator (the `,\n` between the
pretty-printed lines). -/
def joinChars (sep : List Char) : List (List Char) → List Char
  | [] => []
  | [x] => x
  | x :: xs => x ++ sep ++ joinChars sep xs

/-- Modelled from the spec: `JSON.stringify(rec, null, 2)` for a string
map nested at depth 1 - `\x7b\x7d` when empty, otherwise one indented
line per key joined by `,\n`, closed at the outer indentation. -/
def overridesChars (rec : List (String × String)) : List Char :=
  match rec with
  | [] => ['\x7b', '\x7d']
  | _ =>
    '\x7b' :: '\n' :: (joinChars [',', '\n'] (rec.map pairChars)
      ++ ['\n', ' ', ' ', '\x7d'])

/-- `exportToPaletteLive` (`src/App.tsx` lines 122-126): build the
`overrides` record, then `JSON.stringify({version: "1.0", format:
"palettelive", overrides}, null, 2)` (modelled from the spec of
`JSON.stringify` with 2-space indentation). -/
def exportToPaletteLive (colors : List (String × String)) : String :=
  ⟨'\x7b' :: '\n' :: (("  \"version\": \"1.0\",\n  \"format\": \"palettelive\",\n  \"overrides\": ").data
    ++ overridesChars (overridesRecord colors) ++ ['\n', '\x7d'])⟩

/-- Consume an exact literal prefix. -/
def parseLit : List Char → List Char → Option (List Char)
  | [], cs => some cs
  | l :: ls, c :: cs => if c = l then parseLit ls cs else none
  | _ :: _, [] => none

/-- Decode one single-character JSON escape. -/
def unescape1 (c : Char) : Option Char :=
  if c = '"' then some '"'
  else if c = '\\' then some '\\'
  else if c = '/' then some '/'
  else if c = 'b' then some (Char.ofNat 8)
  else if c = 'f' then some (Char.ofNat 12)
  else if c = 'n' then some (Char.ofNat 10)
  else if c = 'r' then some (Char.ofNat 13)
  else if c = 't' then some (Char.ofNat 9)
  else none

/-- Modelled from the spec: the body of a JSON string (the re-import
side of the round-trip format is not part of this repository).  Consumes
characters up to an unescaped closing quote, decoding escapes per JSON;
control characters must be escaped; `\uXXXX` is accepted below the
surrogate range (the serializer only ever emits `\u00XX`). -/
def parseStringBody : List Char → Option (List Char × List Char)
  | [] => none
  | c :: rest =>
    if c = '"' then some ([], rest)
    else if c = '\\' then
      match rest with
      | [] => none
      | e :: rest' =>
        if e = 'u' then
          match rest' with
          | h1 :: h2 :: h3 :: h4 :: rest'' =>
            match hexDigitVal? h1, hexDigitVal? h2, hexDigitVal? h3, hexDigitVal? h4 with
            | some d1, some d2, some d3, some d4 =>
              if 4096 * d1 + 256 * d2 + 16 * d3 + d4 < 55296 then
                (parseStringBody rest'').map fun pr =>
                  (Char.ofNat (4096 * d1 + 256 * d2 + 16 * d3 + d4) :: pr.1, pr.2)
              else none
            | _, _, _, _ => none
          | _ => none
        else
          match unescape1 e with
          | some d => (parseStringBody rest').map fun pr => (d :: pr.1, pr.2)
          | none => none
    else if c.toNat < 32 then none
    else (parseStringBody rest).map fun pr => (c :: pr.1, pr.2)

/-- Modelled from the spec: the `"name": "value"` lines of the
pretty-printed `overrides` object, as laid out by the serializer. -/
def parsePairs : ℕ → List Char → Option (List (String × String) × List Char)
  | 0, _ => none
  | fuel + 1, cs =>
    match cs with
    | ' ' :: ' ' :: ' ' :: ' ' :: '"' :: cs1 =>
      match parseStringBody cs1 with
      | none => none
      | some (name, cs2) =>
        match cs2 with
        | ':' :: ' ' :: '"' :: cs3 =>
          match parseStringBody cs3 with
          | none => none
          | some (val, cs4) =>
            match cs4 with
            | ',' :: '\n' :: cs5 =>
              (parsePairs fuel cs5).map fun pr => ((⟨name⟩, ⟨val⟩) :: pr.1, pr.2)
            | '\n' :: ' ' :: ' ' :: '\x7d' :: cs5 => some ([(⟨name⟩, ⟨val⟩)], cs5)
            | _ => none
        | _ => none
    | _ => none

/-- Modelled from the spec: the pretty-printed `overrides` object. -/
def parseOverrides (cs : List Char) : Option (List (String × String) × List Char) :=
  match cs with
  | '\x7b' :: '\x7d' :: rest => some ([], rest)
  | '\x7b' :: '\n' :: rest => parsePairs (rest.length + 1) rest
  | _ => none

/-- Modelled from the spec: parsing of the round-trip `.plpalette`
document (`JSON.parse` on the re-import side is not part of this
repository).  Accepts exactly the document shape the serializer emits
and returns the `version` and `format` fields and the `overrides`
name-to-color list. -/
def parsePaletteLive (s : String) : Option (String × String × List (String × String)) :=
  match parseLit ("\x7b\n  \"version\": \"").data s.data with
  | none => none
  | some cs1 =>
    match parseStringBody cs1 with
    | none => none
    | some (ver, cs2) =>
      match parseLit (",\n  \"format\": \"").data cs2 with
      | none => none
      | some cs3 =>
        match parseStringBody cs3 with
        | none => none
        | some (fmt, cs4) =>
          match parseLit (",\n  \"overrides\": ").data cs4 with
          | none => none
          | some cs5 =>
            match parseOverrides cs5 with
            | none => none
            | some (ovr, cs6) =>
              match cs6 with
              | ['\n', '\x7d'] => some (⟨ver⟩, ⟨fmt⟩, ovr)
              | _ => none

/-- One character being a hex digit, for the import regex. -/
def isHexDigitB (c : Char) : Bool := (hexDigitVal? c).isSome

/-- Fuel-indexed scan behind `matchHexes`; every step consumes at least
one character, so `cs.length` fuel always suffices. -/
def matchHexesGo : ℕ → List Char → List String
  | 0, _ => []
  | _, [] => []
  | fuel + 1, c :: rest =>
    if c = '#' ∧ (rest.take 6).length = 6 ∧ (rest.take 6).all isHexDigitB then
      ⟨'#' :: rest.take 6⟩ :: matchHexesGo fuel (rest.drop 6)
    else
      matchHexesGo fuel rest

/-- The global regex scan `raw.match(/#[0-9a-fA-F]\x7b6\x7d/gi)`
(`src/App.tsx` line 568): non-overlapping left-to-right matches of `#`
followed by exactly six hex digits; the scan resumes after a match, or
at the next character after a failed attempt. -/
def matchHexes (cs : List Char) : List String :=
  matchHexesGo cs.length cs

/-- The pieces of component state read or written by `applyImportText`
(`src/App.tsx` lines 567-578). -/
structure DemoState where
  customSwatches : ℕ → Option String
  autoPlay : Bool
  editingHex : String
  importOpen : Bool
  importMode : String
  importText : String

/-- `applyImportText` (`src/App.tsx` lines 567-578): with fewer than 2
regex matches the handler returns before any state setter runs (the
existing state is untouched); otherwise the first up-to-6 matches become
the new custom swatches at indices 0..5 (a fresh record, not a merge),
and the surrounding dialog state is reset. -/
def applyImportText (raw : String) (s : DemoState) : DemoState :=
  let hexes := matchHexes raw.data
  if hexes.length < 2 then s
  else
    { s with
      customSwatches := fun i => (hexes.take 6)[i]?
      autoPlay := false
      editingHex := (hexes[2]?).getD ((hexes[0]?).getD "")
      importOpen := false
      importMode := "menu"
      importText := "" }

end PaletteLive

namespace PaletteLive

lemma hexDigitVal?_le {c : Char} {d : ℕ} (h : hexDigitVal? c = some d) : d ≤ 15 := by
  unfold hexDigitVal? at h
  split_ifs at h with h1 h2 h3 <;> simp_all <;> omega

lemma parseIntHexGo_le {acc : ℕ} {cs : List Char} (hcs : cs.length ≤ 1) (hacc : acc ≤ 15) :
    parseIntHexGo acc cs ≤ 255 := by
  match cs with
  | [] => simpa [parseIntHexGo] using by omega
  | [c] =>
    unfold parseIntHexGo
    cases h : hexDigitVal? c with
    | none => simpa [parseIntHexGo] using by omega
    | some d =>
      have hd := hexDigitVal?_le h
      simp [parseIntHexGo]
      omega
  | c :: c' :: rest => simp at hcs

lemma parseIntHex_le {cs : List Char} {v : ℕ} (h2 : cs.length ≤ 2)
    (h : parseIntHex cs = some v) : v ≤ 255 := by
  match cs with
  | [] => simp [parseIntHex] at h
  | c :: rest =>
    unfold parseIntHex at h
    cases hc : hexDigitVal? c with
    | none => simp [hc] at h
    | some d =>
      simp [hc] at h
      subst h
      have hr1 : rest.length ≤ 1 := by
        simp at h2
        omega
      exact parseIntHexGo_le hr1 (hexDigitVal?_le hc)

lemma sliceChars_len_le (cs : List Char) (a b : ℕ) :
    (sliceChars cs a b).length ≤ b - a := by
  simp [sliceChars]

lemma lumChannels_le {s : String} {r g b : ℕ} (h : lumChannels s = some (r, g, b)) :
    r ≤ 255 ∧ g ≤ 255 ∧ b ≤ 255 := by
  unfold lumChannels at h
  cases hr : parseIntHex (sliceChars s.data 1 3) with
  | none => simp [hr] at h
  | some r' =>
    cases hg : parseIntHex (sliceChars s.data 3 5) with
    | none => simp [hr, hg] at h
    | some g' =>
      cases hb : parseIntHex (sliceChars s.data 5 7) with
      | none => simp [hr, hg, hb] at h
      | some b' =>
        simp [hr, hg, hb] at h
        obtain ⟨rfl, rfl, rfl⟩ := h
        exact ⟨parseIntHex_le (by simpa using sliceChars_len_le _ 1 3) hr,
               parseIntHex_le (by simpa using sliceChars_len_le _ 3 5) hg,
               parseIntHex_le (by simpa using sliceChars_len_le _ 5 7) hb⟩

lemma gammaWCAG_mem {c : ℝ} (h0 : 0 ≤ c) (h1 : c ≤ 1) :
    0 ≤ gammaWCAG c ∧ gammaWCAG c ≤ 1 := by
  unfold gammaWCAG
  split_ifs with h
  · constructor
    · positivity
    · rw [div_le_one (by norm_num)]
      linarith
  · have hb0 : (0 : ℝ) ≤ (c + 0.055) / 1.055 := by positivity
    have hb1 : (c + 0.055) / 1.055 ≤ 1 := by
      rw [div_le_one (by norm_num)]
      linarith
    exact ⟨Real.rpow_nonneg hb0 _, Real.rpow_le_one hb0 hb1 (by norm_num)⟩

lemma lumRGB_mem {r g b : ℕ} (hr : r ≤ 255) (hg : g ≤ 255) (hb : b ≤ 255) :
    0 ≤ lumRGB r g b ∧ lumRGB r g b ≤ 1 := by
  have cr : (0 : ℝ) ≤ (r : ℝ) / 255 ∧ (r : ℝ) / 255 ≤ 1 := by
    constructor
    · positivity
    · rw [div_le_one (by norm_num)]
      exact_mod_cast hr.trans (by norm_num)
  have cg : (0 : ℝ) ≤ (g : ℝ) / 255 ∧ (g : ℝ) / 255 ≤ 1 := by
    constructor
    · positivity
    · rw [div_le_one (by norm_num)]
      exact_mod_cast hg.trans (by norm_num)
  have cb : (0 : ℝ) ≤ (b : ℝ) / 255 ∧ (b : ℝ) / 255 ≤ 1 := by
    constructor
    · positivity
    · rw [div_le_one (by norm_num)]
      exact_mod_cast hb.trans (by norm_num)
  have Br := gammaWCAG_mem cr.1 cr.2
  have Bg := gammaWCAG_mem cg.1 cg.2
  have Bb := gammaWCAG_mem cb.1 cb.2
  unfold lumRGB
  constructor
  · nlinarith [Br.1, Bg.1, Bb.1]
  · nlinarith [Br.2, Bg.2, Bb.2, Br.1, Bg.1, Bb.1]

/-- Any luminance the code produces lies in `[0, 1]`. -/
lemma luminance_mem {s : String} {x : ℝ} (h : luminance s = some x) :
    0 ≤ x ∧ x ≤ 1 := by
  unfold luminance at h
  cases hc : lumChannels s with
  | none => simp [hc] at h
  | some c =>
    obtain ⟨r, g, b⟩ := c
    simp [hc] at h
    obtain ⟨hr, hg, hb⟩ := lumChannels_le hc
    simpa [← h] using lumRGB_mem hr hg hb

lemma exists_six {α : Type} {l : List α} (h : l.length = 6) :
    ∃ a b c d e f, l = [a, b, c, d, e, f] := by
  rcases l with _ | ⟨a, _ | ⟨b, _ | ⟨c, _ | ⟨d, _ | ⟨e, _ | ⟨f, _ | ⟨g, t⟩⟩⟩⟩⟩⟩⟩ <;>
      simp only [List.length] at h <;> try omega
  exact ⟨a, b, c, d, e, f, rfl⟩

/-- A well-formed `#RRGGBB` string has a (real-valued, non-`NaN`)
luminance. -/
lemma isHexColorB_luminance {s : String} (h : isHexColorB s = true) :
    ∃ x, luminance s = some x := by
  unfold isHexColorB at h
  cases hd : s.data with
  | nil => rw [hd] at h; simp at h
  | cons c rest =>
    rw [hd] at h
    simp only [Bool.and_eq_true, decide_eq_true_eq, List.all_eq_true] at h
    obtain ⟨⟨hc, hlen⟩, hdig⟩ := h
    obtain ⟨x1, x2, x3, x4, x5, x6, rfl⟩ := exists_six hlen
    obtain ⟨d1, hd1⟩ := Option.isSome_iff_exists.mp (hdig x1 (by simp))
    obtain ⟨d2, hd2⟩ := Option.isSome_iff_exists.mp (hdig x2 (by simp))
    obtain ⟨d3, hd3⟩ := Option.isSome_iff_exists.mp (hdig x3 (by simp))
    obtain ⟨d4, hd4⟩ := Option.isSome_iff_exists.mp (hdig x4 (by simp))
    obtain ⟨d5, hd5⟩ := Option.isSome_iff_exists.mp (hdig x5 (by simp))
    obtain ⟨d6, hd6⟩ := Option.isSome_iff_exists.mp (hdig x6 (by simp))
    refine ⟨lumRGB (parseIntHexGo d1 [x2]) (parseIntHexGo d3 [x4]) (parseIntHexGo d5 [x6]), ?_⟩
    unfold luminance lumChannels
    rw [hd]
    simp [sliceChars, parseIntHex, hd1, hd3, hd5]

lemma contrastRatio_comm (a b : String) : contrastRatio a b = contrastRatio b a := by
  unfold contrastRatio
  cases ha : luminance a with
  | none =>
    cases hb : luminance b <;> rfl
  | some lA =>
    cases hb : luminance b with
    | none => rfl
    | some lB =>
      simp only []
      rcases lt_trichotomy (lA + 0.05) (lB + 0.05) with hlt | heq | hgt
      · rw [if_neg (by linarith), if_pos hlt]
      · rw [heq]
      · rw [if_pos hgt, if_neg (by linarith)]

lemma contrastRatio_self {a : String} {lA : ℝ} (h : luminance a = some lA) :
    contrastRatio a a = some 1 := by
  have hge : 0 ≤ lA := (luminance_mem h).1
  unfold contrastRatio
  rw [h]
  simp only [if_neg (lt_irrefl _)]
  rw [div_self (by linarith)]

lemma contrastRatio_range {a b : String} {lA lB : ℝ}
    (ha : luminance a = some lA) (hb : luminance b = some lB) :
    ∃ x, contrastRatio a b = some x ∧ 1 ≤ x ∧ x ≤ 21 := by
  obtain ⟨ha0, ha1⟩ := luminance_mem ha
  obtain ⟨hb0, hb1⟩ := luminance_mem hb
  unfold contrastRatio
  rw [ha, hb]
  simp only []
  refine ⟨_, rfl, ?_⟩
  split_ifs with h
  · constructor
    · rw [le_div_iff₀ (by linarith)]
      linarith
    · rw [div_le_iff₀ (by linarith)]
      nlinarith
  · constructor
    · rw [le_div_iff₀ (by linarith)]
      linarith
    · rw [div_le_iff₀ (by linarith)]
      nlinarith

end PaletteLive

namespace PaletteLive

lemma lumChannels_black : lumChannels "#000000" = some (0, 0, 0) := by decide

lemma lumChannels_white : lumChannels "#ffffff" = some (255, 255, 255) := by decide

lemma lumChannels_whiteU : lumChannels "#FFFFFF" = some (255, 255, 255) := by decide

lemma gammaWCAG_zero : gammaWCAG 0 = 0 := by
  unfold gammaWCAG wcagThreshold
  rw [if_pos (by norm_num)]
  norm_num

lemma gammaWCAG_one : gammaWCAG 1 = 1 := by
  unfold gammaWCAG wcagThreshold
  rw [if_neg (by norm_num)]
  have hbase : ((1 : ℝ) + 0.055) / 1.055 = 1 := by norm_num
  rw [hbase, Real.one_rpow]

lemma luminance_black : luminance "#000000" = some 0 := by
  unfold luminance
  rw [lumChannels_black]
  simp only [Option.map_some']
  unfold lumRGB
  norm_num [gammaWCAG_zero]

lemma luminance_white : luminance "#ffffff" = some 1 := by
  unfold luminance
  rw [lumChannels_white]
  simp only [Option.map_some']
  unfold lumRGB
  norm_num [gammaWCAG_one]

lemma luminance_whiteU : luminance "#FFFFFF" = some 1 := by
  unfold luminance
  rw [lumChannels_whiteU]
  simp only [Option.map_some']
  unfold lumRGB
  norm_num [gammaWCAG_one]

lemma contrastRatio_white_black : contrastRatio "#ffffff" "#000000" = some 21 := by
  unfold contrastRatio
  rw [luminance_white, luminance_black]
  simp only []
  rw [if_pos (by norm_num)]
  norm_num

end PaletteLive

namespace PaletteLive

lemma fixStep_ne {bg : String} {swatches : List String} {next : ℕ → Option String}
    {i j : ℕ} (h : j ≠ i) : fixStep bg swatches next i j = next j := by
  unfold fixStep
  split_ifs with h3
  · rfl
  · cases hfe : fixEntry bg ((next i).getD (swatches.getD i "")) with
    | none => rfl
    | some f => simp [h]

lemma fixStep_lt {bg : String} {swatches : List String} {next : ℕ → Option String}
    {i : ℕ} (h : i < 3) : fixStep bg swatches next i = next := by
  unfold fixStep
  rw [if_pos h]

lemma fixStep_self {bg : String} {swatches : List String} {next : ℕ → Option String}
    {i : ℕ} (h : ¬ i < 3) :
    fixStep bg swatches next i i
      = (fixEntry bg ((next i).getD (swatches.getD i ""))).or (next i) := by
  unfold fixStep
  rw [if_neg h]
  cases hfe : fixEntry bg ((next i).getD (swatches.getD i "")) with
  | none => rfl
  | some f => simp [Option.or]

/-- Pointwise effect of folding `fixStep` over a duplicate-free index
list: index `j` is rewritten by its own iteration only, reading the
entry the accumulator still holds from the start. -/
lemma foldl_fixStep_apply {bg : String} {swatches : List String} :
    ∀ (L : List ℕ), L.Nodup → ∀ (next : ℕ → Option String) (j : ℕ),
      (L.foldl (fixStep bg swatches) next) j =
        if j ∈ L ∧ ¬ j < 3 then
          (fixEntry bg ((next j).getD (swatches.getD j ""))).or (next j)
        else next j := by
  intro L
  induction L with
  | nil =>
    intro _ next j
    simp
  | cons i L' ih =>
    intro hnd next j
    obtain ⟨hni, hnd'⟩ := List.nodup_cons.mp hnd
    rw [List.foldl_cons, ih hnd' _ j]
    by_cases hji : j = i
    · subst hji
      rw [if_neg (by simp [hni])]
      by_cases h3 : j < 3
      · rw [fixStep_lt h3, if_neg (by simp [h3])]
      · rw [fixStep_self h3, if_pos ⟨by simp, h3⟩]
    · rw [fixStep_ne hji]
      by_cases hjm : j ∈ L' ∧ ¬ j < 3
      · rw [if_pos hjm, if_pos ⟨List.mem_cons_of_mem _ hjm.1, hjm.2⟩]
      · rw [if_neg hjm, if_neg ?_]
        intro hc
        exact hjm ⟨(List.mem_cons.mp hc.1).resolve_left hji, hc.2⟩

/-- What `fixTextContrast` returns at each index: indices `>= 3` inside
the swatch range are replaced by a successful repair of their current
color (custom override if present, else the base swatch), everything
else is handed back unchanged. -/
lemma fixTextContrast_apply (swatches : List String)
    (custom : ℕ → Option String) (j : ℕ) :
    fixTextContrast swatches custom j =
      if j < swatches.length ∧ ¬ j < 3 then
        (fixEntry ((custom 0).getD (swatches.getD 0 ""))
            ((custom j).getD (swatches.getD j ""))).or (custom j)
      else custom j := by
  unfold fixTextContrast
  rw [foldl_fixStep_apply (List.range swatches.length) (List.nodup_range _) custom j]
  simp [List.mem_range]

lemma fixLoop_eq_none {bg : String} {L : Prop} :
    ∀ (fuel : ℕ) (rgb : ℕ × ℕ × ℕ),
      (∀ n, 1 ≤ n → n ≤ fuel →
        ¬ jsGe (contrastRatio (hexOfRGB ((stepRGB L)^[n] rgb)) bg) 4.5) →
      fixLoop bg L fuel rgb = none := by
  intro fuel
  induction fuel with
  | zero =>
    intro rgb _
    rfl
  | succ f ih =>
    intro rgb h
    have h1 : ¬ jsGe (contrastRatio (hexOfRGB (stepRGB L rgb)) bg) 4.5 := by
      have := h 1 le_rfl (by omega)
      rwa [Function.iterate_one] at this
    simp only [fixLoop]
    rw [if_neg h1]
    refine ih (stepRGB L rgb) ?_
    intro n hn1 hnf
    have := h (n + 1) (by omega) (by omega)
    rwa [Function.iterate_succ_apply] at this

lemma fixLoop_eq_some {bg : String} {L : Prop} :
    ∀ (fuel : ℕ) (rgb : ℕ × ℕ × ℕ) (n : ℕ), 1 ≤ n → n ≤ fuel →
      jsGe (contrastRatio (hexOfRGB ((stepRGB L)^[n] rgb)) bg) 4.5 →
      (∀ m, 1 ≤ m → m < n →
        ¬ jsGe (contrastRatio (hexOfRGB ((stepRGB L)^[m] rgb)) bg) 4.5) →
      fixLoop bg L fuel rgb = some (hexOfRGB ((stepRGB L)^[n] rgb)) := by
  intro fuel
  induction fuel with
  | zero =>
    intro rgb n h1 h0
    omega
  | succ f ih =>
    intro rgb n h1 hle hpass hmin
    simp only [fixLoop]
    obtain ⟨k, rfl⟩ : ∃ k, n = k + 1 := ⟨n - 1, by omega⟩
    by_cases hk0 : k = 0
    · subst hk0
      rw [zero_add, Function.iterate_one] at hpass
      rw [if_pos hpass, zero_add, Function.iterate_one]
    · have hfail1 : ¬ jsGe (contrastRatio (hexOfRGB (stepRGB L rgb)) bg) 4.5 := by
        have := hmin 1 le_rfl (by omega)
        rwa [Function.iterate_one] at this
      rw [if_neg hfail1]
      have hres := ih (stepRGB L rgb) k (by omega) (by omega) ?_ ?_
      · rw [hres, ← Function.iterate_succ_apply]
      · rw [← Function.iterate_succ_apply]
        exact hpass
      · intro m hm1 hmlt
        have := hmin (m + 1) (by omega) (by omega)
        rwa [Function.iterate_succ_apply] at this

end PaletteLive

namespace PaletteLive

lemma lumChannels_0A : lumChannels "#0A0A0A" = some (10, 10, 10) := by decide

lemma gammaWCAG_ten : gammaWCAG ((10 : ℝ) / 255) = (10 : ℝ) / 3294.6 := by
  unfold gammaWCAG wcagThreshold
  rw [if_pos (by norm_num)]
  norm_num

lemma luminance_0A : luminance "#0A0A0A" = some (50 / 16473) := by
  unfold luminance
  rw [lumChannels_0A]
  simp only [Option.map_some']
  unfold lumRGB
  push_cast
  rw [gammaWCAG_ten]
  norm_num

lemma ratio_0A_black : contrastRatio "#0A0A0A" "#000000" = some (17473 / 16473) := by
  unfold contrastRatio
  rw [luminance_0A, luminance_black]
  simp only []
  rw [if_pos (by norm_num)]
  norm_num

lemma ratio_black_black : contrastRatio "#000000" "#000000" = some 1 :=
  contrastRatio_self luminance_black

lemma notGt_black : ¬ jsGt (luminance "#000000") 0.5 := by
  rw [luminance_black]
  rintro ⟨r, hr, hlt⟩
  rw [Option.some_inj] at hr
  subst hr
  norm_num at hlt

lemma notGe_0A : ¬ jsGe (contrastRatio "#0A0A0A" "#000000") 4.5 := by
  rw [ratio_0A_black]
  rintro ⟨r, hr, hle⟩
  rw [Option.some_inj] at hr
  subst hr
  norm_num at hle

lemma notGe_one : ¬ jsGe (some (1 : ℝ)) 4.5 := by
  rintro ⟨r, hr, hle⟩
  rw [Option.some_inj] at hr
  subst hr
  norm_num at hle

lemma hexOfRGB_zero : hexOfRGB (0, 0, 0) = "#000000" := by decide

lemma iter_0A {L : Prop} (hL : ¬ L) {n : ℕ} (hn : 1 ≤ n) :
    (stepRGB L)^[n] (10, 10, 10) = (0, 0, 0) := by
  obtain ⟨k, rfl⟩ : ∃ k, n = k + 1 := ⟨n - 1, by omega⟩
  rw [Function.iterate_succ_apply]
  have h10 : stepRGB L (10, 10, 10) = (0, 0, 0) := by
    unfold stepRGB
    rw [if_neg hL]
    decide
  have h0 : stepRGB L (0, 0, 0) = (0, 0, 0) := by
    unfold stepRGB
    rw [if_neg hL]
    decide
  rw [h10, Function.iterate_fixed h0]

lemma allFail_0A : ∀ n, 1 ≤ n → n ≤ 20 →
    ¬ jsGe (contrastRatio
        (hexOfRGB ((stepRGB (jsGt (luminance "#000000") 0.5))^[n] (10, 10, 10)))
        "#000000") 4.5 := by
  intro n h1 _
  rw [iter_0A notGt_black h1, hexOfRGB_zero, ratio_black_black]
  exact notGe_one

lemma fixEntry_0A_black : fixEntry "#000000" "#0A0A0A" = none := by
  unfold fixEntry
  rw [if_neg notGe_0A]
  rw [show channels? "#0A0A0A" = some (10, 10, 10) from by decide]
  exact fixLoop_eq_none 20 (10, 10, 10) allFail_0A

end PaletteLive

namespace PaletteLive

/-- Claim C1: the spec asserts that with background `#000000` and
text-role foreground `#0A0A0A` (failing AA) the repair converges by
repeated lightening to a ratio of at least 4.5 within 20 steps.  The
code instead evaluates at this failing input: the initial ratio is
`17473/16473 < 4.5`, `luminance("#000000") > 0.5` is false so every
step darkens, and `fixTextContrast` hands the palette back with the
entry at index 3 unmodified (and still failing). -/
theorem claim_C1 :
    (∃ x, contrastRatio "#0A0A0A" "#000000" = some x ∧ x < 4.5) ∧
    ¬ jsGt (luminance "#000000") 0.5 ∧
    fixTextContrast ["#000000", "#000000", "#000000", "#0A0A0A"] (fun _ => none)
      = fun _ => none := by
  refine ⟨⟨17473 / 16473, ratio_0A_black, by norm_num⟩, notGt_black, ?_⟩
  funext i
  rw [fixTextContrast_apply]
  rcases Nat.lt_or_ge i 3 with h3 | h3
  · rw [if_neg fun hc => hc.2 h3]
  · rcases Nat.lt_or_ge i 4 with h4 | h4
    · have hi : i = 3 := by omega
      subst hi
      rw [if_pos ⟨by decide, by omega⟩]
      show (fixEntry "#000000" "#0A0A0A").or none = none
      rw [fixEntry_0A_black]
      rfl
    · rw [if_neg]
      rintro ⟨h1, _⟩
      simp only [List.length_cons, List.length_nil] at h1
      omega

/-- Claim C2: for a candidate entry (index `>= 3`, inside the swatch
range) whose current color fails AA against the background, the repair
direction is fixed once (`lighten` iff the background luminance exceeds
0.5), at most 20 steps are taken, the returned entry is the first
stepped color whose recomputed ratio against the unchanged background
reaches 4.5, and if no step within the budget reaches 4.5 the entry is
handed back unmodified. -/
theorem claim_C2 (swatches : List String) (custom : ℕ → Option String)
    (j r g b : ℕ) (h3 : 3 ≤ j) (hlen : j < swatches.length)
    (hch : channels? ((custom j).getD (swatches.getD j "")) = some (r, g, b))
    (hfail : ¬ jsGe (contrastRatio ((custom j).getD (swatches.getD j ""))
        ((custom 0).getD (swatches.getD 0 ""))) 4.5) :
    (∀ n, 1 ≤ n → n ≤ 20 →
      jsGe (contrastRatio
          (hexOfRGB ((stepRGB (jsGt (luminance ((custom 0).getD (swatches.getD 0 ""))) 0.5))^[n]
            (r, g, b)))
          ((custom 0).getD (swatches.getD 0 ""))) 4.5 →
      (∀ m, 1 ≤ m → m < n →
        ¬ jsGe (contrastRatio
            (hexOfRGB ((stepRGB (jsGt (luminance ((custom 0).getD (swatches.getD 0 ""))) 0.5))^[m]
              (r, g, b)))
            ((custom 0).getD (swatches.getD 0 ""))) 4.5) →
      fixTextContrast swatches custom j
        = some (hexOfRGB
            ((stepRGB (jsGt (luminance ((custom 0).getD (swatches.getD 0 ""))) 0.5))^[n]
              (r, g, b)))) ∧
    ((∀ n, 1 ≤ n → n ≤ 20 →
      ¬ jsGe (contrastRatio
          (hexOfRGB ((stepRGB (jsGt (luminance ((custom 0).getD (swatches.getD 0 ""))) 0.5))^[n]
            (r, g, b)))
          ((custom 0).getD (swatches.getD 0 ""))) 4.5) →
      fixTextContrast swatches custom j = custom j) := by
  have happ := fixTextContrast_apply swatches custom j
  rw [if_pos ⟨hlen, by omega⟩] at happ
  unfold fixEntry at happ
  rw [if_neg hfail, hch] at happ
  have happ2 : fixTextContrast swatches custom j
      = (fixLoop ((custom 0).getD (swatches.getD 0 ""))
          (jsGt (luminance ((custom 0).getD (swatches.getD 0 ""))) 0.5) 20 (r, g, b)).or
        (custom j) := happ
  constructor
  · intro n h1 h20 hpass hmin
    rw [happ2, fixLoop_eq_some 20 (r, g, b) n h1 h20 hpass hmin]
    rfl
  · intro hnone
    rw [happ2, fixLoop_eq_none 20 (r, g, b) hnone]
    rfl

/-- Witness for C2 at the concrete dark-background instance: the
candidate at index 3 fails AA, no darkening step ever reaches 4.5, and
the returned map leaves the entry unset. -/
theorem claim_C2_witness :
    (3 : ℕ) ≤ 3 ∧ 3 < (["#000000", "#000000", "#000000", "#0A0A0A"] : List String).length ∧
    channels? "#0A0A0A" = some (10, 10, 10) ∧
    ¬ jsGe (contrastRatio "#0A0A0A" "#000000") 4.5 ∧
    fixTextContrast ["#000000", "#000000", "#000000", "#0A0A0A"] (fun _ => none) 3 = none :=
  ⟨le_refl 3, by decide, by decide, notGe_0A,
    (claim_C2 ["#000000", "#000000", "#000000", "#0A0A0A"] (fun _ => none) 3 10 10 10
      (le_refl 3) (by decide) (by decide) notGe_0A).2 allFail_0A⟩

/-- Claim C9: `fixTextContrast` changes nothing outside the repaired
entries: indices 0, 1, 2 come back exactly as in the input map, and a
candidate (index `>= 3`) whose current color already reaches ratio 4.5
against the background also comes back unchanged. -/
theorem claim_C9 (swatches : List String) (custom : ℕ → Option String) (j : ℕ) :
    (j < 3 → fixTextContrast swatches custom j = custom j) ∧
    (3 ≤ j →
      jsGe (contrastRatio ((custom j).getD (swatches.getD j ""))
          ((custom 0).getD (swatches.getD 0 ""))) 4.5 →
      fixTextContrast swatches custom j = custom j) := by
  constructor
  · intro h3
    rw [fixTextContrast_apply, if_neg fun hc => hc.2 h3]
  · intro h3 hpass
    rw [fixTextContrast_apply]
    by_cases hin : j < swatches.length ∧ ¬ j < 3
    · rw [if_pos hin]
      unfold fixEntry
      rw [if_pos hpass]
      rfl
    · rw [if_neg hin]

lemma jsGe_white_black : jsGe (contrastRatio "#ffffff" "#000000") 4.5 :=
  ⟨21, contrastRatio_white_black, by norm_num⟩

/-- Witness for C9: background `#000000`, untouched index 0, and a
passing candidate `#ffffff` at index 3 that is returned unchanged. -/
theorem claim_C9_witness :
    ((0 : ℕ) < 3 ∧
      fixTextContrast ["#000000", "#000000", "#000000", "#ffffff"] (fun _ => none) 0 = none) ∧
    ((3 : ℕ) ≤ 3 ∧ jsGe (contrastRatio "#ffffff" "#000000") 4.5 ∧
      fixTextContrast ["#000000", "#000000", "#000000", "#ffffff"] (fun _ => none) 3 = none) :=
  ⟨⟨by decide,
    (claim_C9 ["#000000", "#000000", "#000000", "#ffffff"] (fun _ => none) 0).1 (by decide)⟩,
   ⟨le_refl 3, jsGe_white_black,
    (claim_C9 ["#000000", "#000000", "#000000", "#ffffff"] (fun _ => none) 3).2
      (le_refl 3) jsGe_white_black⟩⟩

/-- Claim C3: for well-formed `#RRGGBB` colors the contrast ratio is
symmetric, the self-ratio is exactly 1, and every ratio lies in
`[1, 21]`. -/
theorem claim_C3 (a b : String) (ha : isHexColorB a = true) (hb : isHexColorB b = true) :
    contrastRatio a b = contrastRatio b a ∧
    contrastRatio a a = some 1 ∧
    ∃ x, contrastRatio a b = some x ∧ 1 ≤ x ∧ x ≤ 21 := by
  obtain ⟨lA, hA⟩ := isHexColorB_luminance ha
  obtain ⟨lB, hB⟩ := isHexColorB_luminance hb
  exact ⟨contrastRatio_comm a b, contrastRatio_self hA, contrastRatio_range hA hB⟩

/-- Witness for C3 at two concrete palette colors. -/
theorem claim_C3_witness :
    isHexColorB "#0B1220" = true ∧ isHexColorB "#818CF8" = true ∧
    (contrastRatio "#0B1220" "#818CF8" = contrastRatio "#818CF8" "#0B1220" ∧
     contrastRatio "#0B1220" "#0B1220" = some 1 ∧
     ∃ x, contrastRatio "#0B1220" "#818CF8" = some x ∧ 1 ≤ x ∧ x ≤ 21) :=
  ⟨by decide, by decide, claim_C3 "#0B1220" "#818CF8" (by decide) (by decide)⟩

/-- Claim C4: `luminance` is exactly 0 on `#000000` and exactly 1 on
`#FFFFFF` (in the real-number model of the floating computation), and
the WCAG threshold `0.03928` of `luminance` stays distinct from the
sRGB threshold `0.04045` of the LAB/OKLCH `toLinear` helpers: the two
constants differ and there are channel intensities they classify into
different branches. -/
theorem claim_C4 :
    luminance "#000000" = some 0 ∧ luminance "#FFFFFF" = some 1 ∧
    wcagThreshold ≠ srgbThreshold ∧
    ∃ c : ℝ, c ≤ srgbThreshold ∧ ¬ c ≤ wcagThreshold := by
  refine ⟨luminance_black, luminance_whiteU, ?_, 0.04, ?_, ?_⟩
  · unfold wcagThreshold srgbThreshold
    norm_num
  · unfold srgbThreshold
    norm_num
  · unfold wcagThreshold
    norm_num

end PaletteLive

namespace PaletteLive

lemma hue_mem (y x : ℝ) :
    0 ≤ (if atan2 y x * (180 / Real.pi) < 0 then atan2 y x * (180 / Real.pi) + 360
         else atan2 y x * (180 / Real.pi)) ∧
    (if atan2 y x * (180 / Real.pi) < 0 then atan2 y x * (180 / Real.pi) + 360
     else atan2 y x * (180 / Real.pi)) < 360 := by
  have hpi : 0 < Real.pi := Real.pi_pos
  have hk : 0 < 180 / Real.pi := by positivity
  have hub : atan2 y x * (180 / Real.pi) ≤ 180 := by
    have harg : atan2 y x ≤ Real.pi := Complex.arg_le_pi (⟨x, y⟩ : ℂ)
    calc atan2 y x * (180 / Real.pi) ≤ Real.pi * (180 / Real.pi) :=
          mul_le_mul_of_nonneg_right harg (le_of_lt hk)
      _ = 180 := by field_simp
  have hlb : -180 < atan2 y x * (180 / Real.pi) := by
    have harg : -Real.pi < atan2 y x := Complex.neg_pi_lt_arg (⟨x, y⟩ : ℂ)
    have h2 : -Real.pi * (180 / Real.pi) < atan2 y x * (180 / Real.pi) :=
      mul_lt_mul_of_pos_right harg hk
    have hpi180 : Real.pi * (180 / Real.pi) = 180 := by
      field_simp
    rw [neg_mul, hpi180] at h2
    exact h2
  split_ifs with h
  · constructor <;> linarith
  · constructor <;> linarith

/-- Claim C7: on every well-formed `#RRGGBB` color the OKLCH converter
produces a hue `H` with `0 <= H < 360` (the `atan2` degrees value,
plus 360 when negative). -/
theorem claim_C7 (s : String) (hs : isHexColorB s = true) :
    ∃ L C H, hexToOklch s = some (L, C, H) ∧ 0 ≤ H ∧ H < 360 := by
  unfold isHexColorB at hs
  cases hd : s.data with
  | nil =>
    rw [hd] at hs
    simp at hs
  | cons c rest =>
    rw [hd] at hs
    simp only [Bool.and_eq_true, decide_eq_true_eq, List.all_eq_true] at hs
    obtain ⟨⟨hc, hlen⟩, hdig⟩ := hs
    subst hc
    obtain ⟨x1, x2, x3, x4, x5, x6, rfl⟩ := exists_six hlen
    obtain ⟨d1, hd1⟩ := Option.isSome_iff_exists.mp (hdig x1 (by simp))
    obtain ⟨d3, hd3⟩ := Option.isSome_iff_exists.mp (hdig x3 (by simp))
    obtain ⟨d5, hd5⟩ := Option.isSome_iff_exists.mp (hdig x5 (by simp))
    unfold hexToOklch
    rw [hd]
    rw [show replaceFirstHash ('#' :: [x1, x2, x3, x4, x5, x6]) = [x1, x2, x3, x4, x5, x6]
          from by simp [replaceFirstHash]]
    rw [List.take_of_length_le (by simp)]
    simp only [sliceChars, List.drop, List.take, Nat.sub_zero]
    rw [show parseIntHex [x1, x2] = some (parseIntHexGo d1 [x2]) from by
          simp [parseIntHex, hd1]]
    rw [show parseIntHex [x3, x4] = some (parseIntHexGo d3 [x4]) from by
          simp [parseIntHex, hd3]]
    rw [show parseIntHex [x5, x6] = some (parseIntHexGo d5 [x6]) from by
          simp [parseIntHex, hd5]]
    exact ⟨_, _, _, rfl, (hue_mem _ _).1, (hue_mem _ _).2⟩

lemma toLinear_zero : toLinear 0 = 0 := by
  unfold toLinear srgbThreshold
  rw [if_pos (by norm_num)]
  norm_num

lemma cbrt_zero : cbrt 0 = 0 := by
  unfold cbrt
  rw [if_pos le_rfl, Real.zero_rpow (by norm_num)]

lemma atan2_zero : atan2 0 0 = 0 := by
  unfold atan2
  have h0 : (⟨0, 0⟩ : ℂ) = 0 := by
    apply Complex.ext <;> simp
  rw [h0, Complex.arg_zero]

lemma hexToOklch_black : hexToOklch "#000000" = some (0, 0, 0) := by
  unfold hexToOklch
  rw [show (replaceFirstHash "#000000".data).take 6 = ['0', '0', '0', '0', '0', '0']
        from by decide]
  simp only [sliceChars, List.drop, List.take, Nat.sub_zero]
  rw [show parseIntHex ['0', '0'] = some 0 from by decide]
  simp only [Nat.cast_zero, toLinear_zero, mul_zero, add_zero, zero_add, cbrt_zero,
    zero_mul, sub_zero, zero_sub, neg_zero, Real.sqrt_zero, atan2_zero]
  rw [if_neg (lt_irrefl 0)]

/-- Witness for C7 at `#000000`, whose OKLCH value is exactly
`(0, 0, 0)`. -/
theorem claim_C7_witness :
    isHexColorB "#000000" = true ∧
    ∃ L C H, hexToOklch "#000000" = some (L, C, H) ∧ 0 ≤ H ∧ H < 360 :=
  ⟨by decide, claim_C7 "#000000" (by decide)⟩

end PaletteLive

namespace PaletteLive

lemma cmykLine_GGGGGG_c : cmykLine ("c", "#GGGGGG") = "c: cmyk(0.0%, 0.0%, 0.0%, NaN%)" := by
  simp only [cmykLine]
  rw [if_neg (by decide)]
  rw [show (replaceFirstHash "#GGGGGG".data).take 6 = ['G', 'G', 'G', 'G', 'G', 'G']
        from by decide]
  simp only [sliceChars, List.drop, List.take, Nat.sub_zero]
  rw [show parseIntHex ['G', 'G'] = none from by decide]
  simp only [Option.map_none', jsMax, jsSub, jsMulQ, jsLtB]
  norm_num [toFixed1]
  decide

lemma cmykLine_GGGGGG_a : cmykLine ("a", "#GGGGGG") = "a: cmyk(0.0%, 0.0%, 0.0%, NaN%)" := by
  simp only [cmykLine]
  rw [if_neg (by decide)]
  rw [show (replaceFirstHash "#GGGGGG".data).take 6 = ['G', 'G', 'G', 'G', 'G', 'G']
        from by decide]
  simp only [sliceChars, List.drop, List.take, Nat.sub_zero]
  rw [show parseIntHex ['G', 'G'] = none from by decide]
  simp only [Option.map_none', jsMax, jsSub, jsMulQ, jsLtB]
  norm_num [toFixed1]
  decide

lemma cmykLine_black : cmykLine ("black", "#000000")
    = "black: cmyk(0.0%, 0.0%, 0.0%, 100.0%)" := by
  simp only [cmykLine]
  rw [if_neg (by decide)]
  rw [show (replaceFirstHash "#000000".data).take 6 = ['0', '0', '0', '0', '0', '0']
        from by decide]
  simp only [sliceChars, List.drop, List.take, Nat.sub_zero]
  rw [show parseIntHex ['0', '0'] = some 0 from by decide]
  simp only [Option.map_some', jsMax, jsSub, jsMulQ, jsDivQ, jsLtB]
  norm_num [toFixed1]
  decide

lemma cmykLine_white : cmykLine ("white", "#ffffff")
    = "white: cmyk(0.0%, 0.0%, 0.0%, 0.0%)" := by
  simp only [cmykLine]
  rw [if_neg (by decide)]
  rw [show (replaceFirstHash "#ffffff".data).take 6 = ['f', 'f', 'f', 'f', 'f', 'f']
        from by decide]
  simp only [sliceChars, List.drop, List.take, Nat.sub_zero]
  rw [show parseIntHex ['f', 'f'] = some 255 from by decide]
  simp only [Option.map_some', jsMax, jsSub, jsMulQ, jsDivQ, jsLtB]
  norm_num [toFixed1]
  decide

lemma cmykLine_bad12 : cmykLine ("bad", "#12") = "bad: cmyk(0%, 0%, 0%, 100%)" := by
  simp only [cmykLine]
  rw [if_pos (by decide)]
  decide

lemma exportToCMYK_GGGGGG_c : exportToCMYK [("c", "#GGGGGG")]
    = "/* CMYK Color Palette */\n\nc: cmyk(0.0%, 0.0%, 0.0%, NaN%)" := by
  unfold exportToCMYK
  simp only [List.map]
  rw [cmykLine_GGGGGG_c]
  decide

lemma exportToCMYK_GGGGGG_a : exportToCMYK [("a", "#GGGGGG")]
    = "/* CMYK Color Palette */\n\na: cmyk(0.0%, 0.0%, 0.0%, NaN%)" := by
  unfold exportToCMYK
  simp only [List.map]
  rw [cmykLine_GGGGGG_a]
  decide

/-- Claim C10: `exportToCMYK` decides its black-sentinel fallback
solely by payload length - the sentinel is emitted exactly when the
value, after stripping the first `#` and truncating to 6 characters,
does not have 6 characters - never by hex-digit validity: the
6-character non-hex value `#GGGGGG` produces the `NaN` line, not the
sentinel.  (The function is total by construction.) -/
theorem claim_C10 :
    (∀ nm v : String, ((replaceFirstHash v.data).take 6).length ≠ 6 →
      cmykLine (nm, v) = nm ++ ": cmyk(0%, 0%, 0%, 100%)") ∧
    exportToCMYK [("c", "#GGGGGG")]
      = "/* CMYK Color Palette */\n\nc: cmyk(0.0%, 0.0%, 0.0%, NaN%)" := by
  constructor
  · intro nm v hlen
    simp only [cmykLine]
    rw [if_pos hlen]
  · exact exportToCMYK_GGGGGG_c

/-- Witness for C10 at a short payload. -/
theorem claim_C10_witness :
    ((replaceFirstHash "#1234".data).take 6).length ≠ 6 ∧
    cmykLine ("z", "#1234") = "z" ++ ": cmyk(0%, 0%, 0%, 100%)" :=
  ⟨by decide, claim_C10.1 "z" "#1234" (by decide)⟩

/-- Counterexample to claim C5 as stated: the entry `#GGGGGG` is not 6
valid hex digits, yet the batch output is the `NaN` line and not the
sentinel - in either of the two sentinel spellings the claim asserts
(`0%` per spec section 4.3, `0.0%` per spec section 8). -/
theorem claim_C5_counterexample :
    exportToCMYK [("a", "#GGGGGG")]
        = "/* CMYK Color Palette */\n\na: cmyk(0.0%, 0.0%, 0.0%, NaN%)" ∧
    exportToCMYK [("a", "#GGGGGG")]
        ≠ "/* CMYK Color Palette */\n\na: cmyk(0%, 0%, 0%, 100%)" ∧
    exportToCMYK [("a", "#GGGGGG")]
        ≠ "/* CMYK Color Palette */\n\na: cmyk(0.0%, 0.0%, 0.0%, 100.0%)" := by
  refine ⟨exportToCMYK_GGGGGG_a, ?_, ?_⟩
  · rw [exportToCMYK_GGGGGG_a]
    decide
  · rw [exportToCMYK_GGGGGG_a]
    decide

/-- Claim C5 (amended): the per-entry black sentinel, spelled exactly
`<name>: cmyk(0%, 0%, 0%, 100%)`, is emitted for every entry whose
value, after stripping the first `#` and truncating to 6 characters,
does not have length 6; 6-character payloads are converted by the CMYK
formula instead (unparsable digits propagate `NaN`), and each entry of a
batch is converted independently, so a malformed entry never fails the
batch - as on the concrete mixed batch below. -/
theorem claim_C5 :
    (∀ nm v : String, ((replaceFirstHash v.data).take 6).length ≠ 6 →
      cmykLine (nm, v) = nm ++ ": cmyk(0%, 0%, 0%, 100%)") ∧
    exportToCMYK [("bad", "#12"), ("black", "#000000"), ("white", "#ffffff")]
      = "/* CMYK Color Palette */\n\nbad: cmyk(0%, 0%, 0%, 100%)\nblack: cmyk(0.0%, 0.0%, 0.0%, 100.0%)\nwhite: cmyk(0.0%, 0.0%, 0.0%, 0.0%)" := by
  constructor
  · intro nm v hlen
    simp only [cmykLine]
    rw [if_pos hlen]
  · unfold exportToCMYK
    simp only [List.map]
    rw [cmykLine_bad12, cmykLine_black, cmykLine_white]
    decide

/-- Witness for (amended) C5 at a short payload. -/
theorem claim_C5_witness :
    ((replaceFirstHash "#ab".data).take 6).length ≠ 6 ∧
    cmykLine ("w", "#ab") = "w" ++ ": cmyk(0%, 0%, 0%, 100%)" :=
  ⟨by decide, claim_C5.1 "w" "#ab" (by decide)⟩

/-- Claim C8: `applyImportText` with fewer than 2 `#RRGGBB` matches is
a no-op on the whole component state; with 2 or more matches the first
up-to-6 matches become the custom swatches at role indices 0..5, in
order of appearance. -/
theorem claim_C8 (raw : String) (s : DemoState) :
    ((matchHexes raw.data).length < 2 → applyImportText raw s = s) ∧
    (2 ≤ (matchHexes raw.data).length →
      (applyImportText raw s).customSwatches
        = fun i => ((matchHexes raw.data).take 6)[i]?) := by
  constructor
  · intro h
    simp only [applyImportText]
    rw [if_pos h]
  · intro h
    simp only [applyImportText]
    rw [if_neg (by omega)]

/-- Witness for C8: an unparsable text leaves a concrete state
untouched; a two-color text installs the two matches at indices 0, 1. -/
theorem claim_C8_witness :
    (matchHexes "no colors".data).length < 2 ∧
    2 ≤ (matchHexes "#aabbcc #ddeeff".data).length ∧
    applyImportText "no colors"
        (DemoState.mk (fun _ => none) true "#3498db" true "menu" "no colors")
      = DemoState.mk (fun _ => none) true "#3498db" true "menu" "no colors" ∧
    (applyImportText "#aabbcc #ddeeff"
        (DemoState.mk (fun _ => none) true "#3498db" true "menu" "")).customSwatches
      = fun i => ((matchHexes "#aabbcc #ddeeff".data).take 6)[i]? :=
  ⟨by decide, by decide,
   (claim_C8 "no colors" (DemoState.mk (fun _ => none) true "#3498db" true "menu" "no colors")).1
     (by decide),
   (claim_C8 "#aabbcc #ddeeff" (DemoState.mk (fun _ => none) true "#3498db" true "menu" "")).2
     (by decide)⟩

end PaletteLive

namespace PaletteLive

lemma parseLit_append : ∀ (l cs : List Char), parseLit l (l ++ cs) = some cs := by
  intro l
  induction l with
  | nil => intro cs; rfl
  | cons c ls ih =>
    intro cs
    simp [parseLit, ih]

lemma jsonEscape_nil : jsonEscape [] = [] := rfl

lemma jsonEscape_cons (c : Char) (cs : List Char) :
    jsonEscape (c :: cs) = jsonEscapeChar c ++ jsonEscape cs := rfl

lemma hexDigitVal?_hexDigitChar {d : ℕ} (h : d < 16) :
    hexDigitVal? (hexDigitChar d) = some d := by
  interval_cases d <;> decide

/-- Parsing inverts JSON escaping: the body parser consumes exactly the
escaped form of `s` up to the closing quote. -/
lemma parseStringBody_escape : ∀ (s rest : List Char),
    parseStringBody (jsonEscape s ++ '"' :: rest) = some (s, rest) := by
  intro s
  induction s with
  | nil =>
    intro rest
    rw [jsonEscape_nil, List.nil_append, parseStringBody.eq_def]
    simp
  | cons c cs ih =>
    intro rest
    rw [jsonEscape_cons, List.append_assoc]
    unfold jsonEscapeChar
    split_ifs with h1 h2 h3 h4 h5 h6 h7 h8
    · subst h1
      rw [List.cons_append, List.cons_append, List.nil_append, parseStringBody.eq_def]
      simp [unescape1, ih rest]
    · subst h2
      rw [List.cons_append, List.cons_append, List.nil_append, parseStringBody.eq_def]
      simp [unescape1, ih rest]
    · rw [List.cons_append, List.cons_append, List.nil_append, parseStringBody.eq_def]
      rw [show c = Char.ofNat 8 from h3]
      simp [unescape1, ih rest]
    · rw [List.cons_append, List.cons_append, List.nil_append, parseStringBody.eq_def]
      rw [show c = Char.ofNat 12 from h4]
      simp [unescape1, ih rest]
    · rw [List.cons_append, List.cons_append, List.nil_append, parseStringBody.eq_def]
      rw [show c = Char.ofNat 10 from h5]
      simp [unescape1, ih rest]
    · rw [List.cons_append, List.cons_append, List.nil_append, parseStringBody.eq_def]
      rw [show c = Char.ofNat 13 from h6]
      simp [unescape1, ih rest]
    · rw [List.cons_append, List.cons_append, List.nil_append, parseStringBody.eq_def]
      rw [show c = Char.ofNat 9 from h7]
      simp [unescape1, ih rest]
    · -- other control characters, escaped as \u00XX
      have hhi : c.toNat / 16 < 16 := by omega
      have hlo : c.toNat % 16 < 16 := by omega
      have hsum : 16 * (c.toNat / 16) + c.toNat % 16 = c.toNat := by omega
      have hlt : c.toNat < 55296 := by omega
      simp only [List.cons_append, List.nil_append]
      rw [parseStringBody.eq_def]
      simp [unescape1, hexDigitVal?_hexDigitChar hhi, hexDigitVal?_hexDigitChar hlo, hsum,
        hlt, Char.ofNat_toNat, ih rest]
      rw [show hexDigitVal? '0' = some 0 from by decide]
      simp only []
      have heq : 4096 * 0 + 256 * 0 + 16 * (c.toNat / 16) + c.toNat % 16 = c.toNat := by omega
      rw [if_pos (show 4096 * 0 + 256 * 0 + 16 * (c.toNat / 16) + c.toNat % 16 < 55296 by omega)]
      rw [heq, Char.ofNat_toNat]
    · -- plain character
      rw [List.cons_append, List.nil_append, parseStringBody.eq_def]
      simp [if_neg h1, if_neg h2, if_neg h8, h1, h2, h8, ih rest]

end PaletteLive

namespace PaletteLive

lemma pairChars_eq (p : String × String) :
    pairChars p = ' ' :: ' ' :: ' ' :: ' ' :: '"' :: (jsonEscape p.1.data
      ++ '"' :: ':' :: ' ' :: '"' :: (jsonEscape p.2.data ++ ['"'])) := by
  simp [pairChars, quoteJson, List.append_assoc]

lemma parsePairs_roundtrip : ∀ (ps : List (String × String)) (fuel : ℕ) (rest : List Char),
    ps ≠ [] → ps.length ≤ fuel →
    parsePairs fuel (joinChars [',', '\n'] (ps.map pairChars)
      ++ '\n' :: ' ' :: ' ' :: '\x7d' :: rest) = some (ps, rest) := by
  intro ps
  induction ps with
  | nil =>
    intro fuel rest h
    exact absurd rfl h
  | cons p ps ih =>
    intro fuel rest _ hlen
    obtain ⟨f, rfl⟩ : ∃ f, fuel = f + 1 := ⟨fuel - 1, by simp at hlen; omega⟩
    cases ps with
    | nil =>
      simp only [List.map, joinChars]
      rw [pairChars_eq]
      rw [parsePairs.eq_def]
      simp only [List.cons_append, List.append_assoc, List.singleton_append]
      rw [parseStringBody_escape]
      simp only []
      rw [parseStringBody_escape]
      simp only [List.nil_append]
    | cons q qs =>
      simp only [List.map, joinChars]
      rw [pairChars_eq]
      rw [parsePairs.eq_def]
      simp only [List.cons_append, List.append_assoc, List.singleton_append]
      rw [parseStringBody_escape]
      simp only []
      rw [parseStringBody_escape]
      simp only [List.nil_append]
      rw [← List.map_cons, ih f rest (by simp) (by simp at hlen ⊢; omega)]
      rfl


lemma pairChars_ne_nil (p : String × String) : pairChars p ≠ [] := by
  simp [pairChars]

lemma joinChars_length_ge : ∀ (ps : List (String × String)), ps ≠ [] →
    ps.length ≤ (joinChars [',', '\n'] (ps.map pairChars)).length := by
  intro ps
  induction ps with
  | nil => intro h; exact absurd rfl h
  | cons p ps ih =>
    intro _
    cases ps with
    | nil => simp [joinChars, pairChars]
    | cons q qs =>
      simp only [List.map, joinChars, List.length_append, List.length_cons]
      have := ih (by simp)
      simp only [List.map, List.length_cons] at this
      have hp : 1 ≤ (pairChars p).length := by simp [pairChars]
      omega

lemma parseOverrides_roundtrip (rec : List (String × String)) (rest : List Char) :
    parseOverrides (overridesChars rec ++ rest) = some (rec, rest) := by
  cases rec with
  | nil =>
    simp [overridesChars, parseOverrides]
  | cons p ps =>
    simp only [overridesChars]
    rw [parseOverrides.eq_def]
    simp only [List.cons_append, List.append_assoc, List.singleton_append, List.nil_append]
    rw [parsePairs_roundtrip (p :: ps) _ rest (by simp) ?_]
    have h1 := joinChars_length_ge (p :: ps) (by simp)
    simp only [List.length_cons] at h1
    simp only [List.length_append, List.length_cons]
    omega


lemma data_mk (l : List Char) : (String.mk l).data = l := rfl

lemma foldl_recordInsert : ∀ (colors acc : List (String × String)),
    (∀ p ∈ colors, ∀ q ∈ acc, q.1 ≠ p.1) →
    List.Pairwise (fun p q => p.1 ≠ q.1) colors →
    colors.foldl (fun a c => recordInsert a c.1 c.2) acc = acc ++ colors := by
  intro colors
  induction colors with
  | nil =>
    intro acc _ _
    simp
  | cons p ps ih =>
    intro acc hdisj hpw
    rw [List.foldl_cons]
    have hnot : ¬ acc.any fun q => q.1 = p.1 := by
      intro hany
      obtain ⟨q, hq, hq1⟩ := List.any_eq_true.mp hany
      exact hdisj p (by simp) q hq (of_decide_eq_true hq1)
    have hins : recordInsert acc p.1 p.2 = acc ++ [p] := by
      unfold recordInsert
      rw [if_neg hnot]
    rw [hins]
    rw [ih (acc ++ [p]) ?_ (List.pairwise_cons.mp hpw).2]
    · simp
    · intro r hr q hq
      rcases List.mem_append.mp hq with hq | hq
      · exact hdisj r (by simp [hr]) q hq
      · have : q = p := by simpa using hq
        subst this
        exact (List.pairwise_cons.mp hpw).1 r hr
  
lemma overridesRecord_eq {colors : List (String × String)}
    (h : List.Pairwise (fun p q => p.1 ≠ q.1) colors) :
    overridesRecord colors = colors := by
  unfold overridesRecord
  rw [foldl_recordInsert colors [] (by simp) h]
  simp

lemma headDecomp (X : List Char) :
    '\x7b' :: '\n' ::
        (("  \"version\": \"1.0\",\n  \"format\": \"palettelive\",\n  \"overrides\": ").data ++ X)
      = ("\x7b\n  \"version\": \"").data
        ++ (jsonEscape "1.0".data
        ++ '"' :: ((",\n  \"format\": \"").data
        ++ (jsonEscape "palettelive".data
        ++ '"' :: ((",\n  \"overrides\": ").data ++ X)))) := by
  have h : ('\x7b' :: '\n' ::
        ("  \"version\": \"1.0\",\n  \"format\": \"palettelive\",\n  \"overrides\": ").data)
      = ("\x7b\n  \"version\": \"").data
        ++ (jsonEscape "1.0".data
        ++ '"' :: ((",\n  \"format\": \"").data
        ++ (jsonEscape "palettelive".data
        ++ '"' :: (",\n  \"overrides\": ").data))) := by decide
  calc '\x7b' :: '\n' ::
        (("  \"version\": \"1.0\",\n  \"format\": \"palettelive\",\n  \"overrides\": ").data ++ X)
      = ('\x7b' :: '\n' ::
          ("  \"version\": \"1.0\",\n  \"format\": \"palettelive\",\n  \"overrides\": ").data) ++ X := by
        simp
    _ = (("\x7b\n  \"version\": \"").data
        ++ (jsonEscape "1.0".data
        ++ '"' :: ((",\n  \"format\": \"").data
        ++ (jsonEscape "palettelive".data
        ++ '"' :: (",\n  \"overrides\": ").data)))) ++ X := by rw [h]
    _ = ("\x7b\n  \"version\": \"").data
        ++ (jsonEscape "1.0".data
        ++ '"' :: ((",\n  \"format\": \"").data
        ++ (jsonEscape "palettelive".data
        ++ '"' :: ((",\n  \"overrides\": ").data ++ X)))) := by
        simp [List.append_assoc]

/-- Claim C6: parsing the serialized internal palette format
reconstructs version `"1.0"`, format `"palettelive"` and exactly the
input name-to-color association (insertion order preserved, hence equal
as a map). -/
theorem claim_C6 (colors : List (String × String))
    (h : List.Pairwise (fun p q => p.1 ≠ q.1) colors) :
    parsePaletteLive (exportToPaletteLive colors) = some ("1.0", "palettelive", colors) := by
  unfold parsePaletteLive exportToPaletteLive
  rw [overridesRecord_eq h]
  rw [data_mk, List.append_assoc, headDecomp]
  rw [parseLit_append]
  simp only []
  rw [parseStringBody_escape]
  simp only []
  rw [parseLit_append]
  simp only []
  rw [parseStringBody_escape]
  simp only []
  rw [parseLit_append]
  simp only []
  rw [parseOverrides_roundtrip]
  rfl

/-- Witness for C6 on a concrete two-entry palette. -/
theorem claim_C6_witness :
    List.Pairwise (fun p q => p.1 ≠ q.1)
      ([("--color-bg", "#0B1220"), ("--color-text", "#EAF0FF")] : List (String × String)) ∧
    parsePaletteLive (exportToPaletteLive [("--color-bg", "#0B1220"), ("--color-text", "#EAF0FF")])
      = some ("1.0", "palettelive", [("--color-bg", "#0B1220"), ("--color-text", "#EAF0FF")]) :=
  ⟨by decide, claim_C6 _ (by decide)⟩

end PaletteLive
